import Mathlib

/-!
Shallow embedding of `target_bigquery/sinks.py` (schema translation, record
coercion, metadata injection, table provisioning, streaming delivery).

Python dictionaries and JSON values are modelled by the `Json` type below;
Python's dynamic failure modes (`KeyError`, `TypeError`, `AttributeError`)
are modelled by the `PyErr` type, and fallible code returns `Except PyErr _`.
-/

set_option maxHeartbeats 1000000

namespace TargetBigQuery

/-- A JSON value / Python object, as manipulated by `sinks.py`.  Python dicts
are ordered association lists (insertion order); numbers are modelled as
integers, which covers every value the claims exercise. -/
inductive Json where
  | null
  | bool (b : Bool)
  | num (n : Int)
  | str (s : String)
  | arr (elems : List Json)
  | obj (fields : List (String × Json))
deriving Repr

/-- The Python exception kinds that the modelled code can raise.  The
distinction matters because `jsonschema_prop_to_bq_column` catches only
`KeyError`. -/
inductive PyErr where
  | keyError
  | typeError
  | attributeError
deriving Repr, DecidableEq

/-- Python truthiness of a value (`if prop_spec:`). -/
def Json.truthy : Json → Bool
  | .null => false
  | .bool b => b
  | .num n => n != 0
  | .str s => !s.isEmpty
  | .arr l => !l.isEmpty
  | .obj d => !d.isEmpty

/-- Model of `isinstance(v, dict)`. -/
def Json.isObj : Json → Bool
  | .obj _ => true
  | _ => false

/-- Model of `isinstance(v, list)`. -/
def Json.isArr : Json → Bool
  | .arr _ => true
  | _ => false

/-- First-match lookup in an ordered dict. -/
def dictGet : List (String × Json) → String → Option Json
  | [], _ => none
  | (k', v) :: rest, k => if k' = k then some v else dictGet rest k

/-- Lookup with a default (`d.get(k, default)` on a dict). -/
def dictGetD (d : List (String × Json)) (k : String) (dflt : Json) : Json :=
  (dictGet d k).getD dflt

/-- Python dict assignment `d[k] = v`: replaces the value in place if the key
exists (keeping its position), otherwise appends. -/
def dictSet : List (String × Json) → String → Json → List (String × Json)
  | [], k, v => [(k, v)]
  | (k', v') :: rest, k, v =>
      if k' = k then (k', v) :: rest else (k', v') :: dictSet rest k v

/-- Model of `obj.get(k, dflt)`: `AttributeError` when the receiver is not a dict. -/
def pyGet (j : Json) (k : String) (dflt : Json) : Except PyErr Json :=
  match j with
  | .obj d => .ok (dictGetD d k dflt)
  | _ => .error .attributeError

/-- Model of `obj.get(k)` (default `None`), returned as an `Option` so that Python's
`None` can be told apart from a present value. -/
def pyGetOpt (j : Json) (k : String) : Except PyErr (Option Json) :=
  match j with
  | .obj d => .ok (dictGet d k)
  | _ => .error .attributeError

/-- Model of subscript `obj[k]` with a string key: `KeyError` for a missing key on a
dict, `TypeError` on any non-dict receiver. -/
def pyIndex (j : Json) (k : String) : Except PyErr Json :=
  match j with
  | .obj d =>
      match dictGet d k with
      | some v => .ok v
      | none => .error .keyError
  | _ => .error .typeError

/-- Python `==` between a value and a string literal. -/
def jsonEqStr : Json → String → Bool
  | .str s, t => s == t
  | _, _ => false

/-- Substring test on character lists (Python `needle in s` for strings,
for a non-empty needle). -/
def listContainsSub (needle : List Char) : List Char → Bool
  | [] => decide (needle = [])
  | c :: rest => needle.isPrefixOf (c :: rest) || listContainsSub needle rest

/-- Python membership `needle in container` for a string needle:
substring test on strings, element equality on lists, key membership on
dicts, `TypeError` otherwise. -/
def pyIn (needle : String) (container : Json) : Except PyErr Bool :=
  match container with
  | .str s => .ok (listContainsSub needle.toList s.toList)
  | .arr l => .ok (l.any (fun e => jsonEqStr e needle))
  | .obj d => .ok (d.any (fun kv => kv.1 == needle))
  | _ => .error .typeError

/-- Model of `bigquery_type(property_type, property_format)` from `sinks.py`:
translate a jsonschema type to a bigquery type.  `property_format` is the
raw value fetched with `.get("format", None)` (so `Json.null` when absent);
the membership tests on `property_type` use Python `in` semantics and can
raise `TypeError`. -/
def bigquery_type (property_type : Json) (property_format : Json) :
    Except PyErr String := do
  if jsonEqStr property_format "date-time" then
    return "timestamp"
  if jsonEqStr property_format "date" then
    return "date"
  else if jsonEqStr property_format "time" then
    return "time"
  else if ← pyIn "number" property_type then
    return "numeric"
  else if (← pyIn "integer" property_type) && (← pyIn "string" property_type) then
    return "string"
  else if ← pyIn "integer" property_type then
    return "integer"
  else if ← pyIn "boolean" property_type then
    return "boolean"
  else if ← pyIn "object" property_type then
    return "record"
  else
    return "string"

/-- One character of `re.sub("[^a-zA-Z0-9_]", "_", name)` followed by
`.lower()` (the two per-character passes are fused). -/
def sanitize_char (c : Char) : Char :=
  if c.isAlphanum || c == '_' then c.toLower else '_'

/-- Model of `safe_column_name(name, quotes=False)` from `sinks.py`: strip backticks
(`name.replace("`", "")` with a one-character pattern is a character
filter), replace every character outside `[a-zA-Z0-9_]` with `_`,
lowercase. -/
def safe_column_name (name : String) : String :=
  String.mk ((name.toList.filter (fun c => c != '`')).map sanitize_char)

/-- A `bigquery.SchemaField`: name, field type, mode, nested fields. -/
structure SchemaField where
  name : String
  fieldType : String
  mode : String
  fields : List SchemaField
deriving Repr

theorem list_sizeOf_pos {α} [SizeOf α] (l : List α) : 0 < sizeOf l := by
  cases l <;> simp

theorem dictGet_sizeOf_lt {d : List (String × Json)} {k : String} {v : Json}
    (h : dictGet d k = some v) : sizeOf v < sizeOf d := by
  induction d with
  | nil => simp [dictGet] at h
  | cons kv rest ih =>
      obtain ⟨k', v'⟩ := kv
      by_cases hk : k' = k
      · simp only [dictGet, if_pos hk, Option.some.injEq] at h
        subst h
        simp only [List.cons.sizeOf_spec, Prod.mk.sizeOf_spec]
        omega
      · simp only [dictGet, if_neg hk] at h
        have := ih h
        simp only [List.cons.sizeOf_spec]
        omega

theorem pyIndex_sizeOf_lt {j : Json} {k : String} {v : Json}
    (h : pyIndex j k = .ok v) : sizeOf v < sizeOf j := by
  cases j with
  | obj d =>
      cases hd : dictGet d k with
      | none => simp [pyIndex, hd] at h
      | some v' =>
          simp only [pyIndex, hd, Except.ok.injEq] at h
          subst h
          have := dictGet_sizeOf_lt hd
          simp only [Json.obj.sizeOf_spec]
          omega
  | null => cases h
  | bool b => cases h
  | num n => cases h
  | str s => cases h
  | arr l => cases h

theorem pyGet_obj_sizeOf_lt {j : Json} {k : String} {pl : List (String × Json)}
    (h : pyGet j k (.obj []) = .ok (.obj pl)) : sizeOf pl < sizeOf j := by
  cases j with
  | obj d =>
      simp only [pyGet, dictGetD, Except.ok.injEq] at h
      cases hd : dictGet d k with
      | none =>
          rw [hd] at h
          simp only [Option.getD_none] at h
          cases h
          simp only [Json.obj.sizeOf_spec, List.nil.sizeOf_spec]
          have := list_sizeOf_pos d
          omega
      | some v =>
          rw [hd] at h
          simp only [Option.getD_some] at h
          subst h
          have := dictGet_sizeOf_lt hd
          simp only [Json.obj.sizeOf_spec] at this ⊢
          omega
  | null => cases h
  | bool b => cases h
  | num n => cases h
  | str s => cases h
  | arr l => cases h

mutual

/-- Model of `BaseBigQuerySink.jsonschema_prop_to_bq_column` from `sinks.py`:
translates a json schema property to a BigQuery schema property.  The
returned `Bool` records whether this call set the sink's
`_contains_coerced_field` flag (the flag is a sticky OR across calls).
The `try ... except KeyError` around the `items` access is modelled by
matching on the error kind: only `KeyError` is caught. -/
def jsonschema_prop_to_bq_column (name : String) (schema_property : Json) :
    Except PyErr (SchemaField × Bool) := do
  let safe_name := safe_column_name name
  let property_type ← pyGet schema_property "type" (.str "string")
  let property_format ← pyGet schema_property "format" .null
  if ← pyIn "array" property_type then
    match hitems : pyIndex schema_property "items" with
    | .error .keyError =>
        -- Coerced to string because there was no `items` property
        return (⟨safe_name, "string", "NULLABLE", []⟩, true)
    | .error e => .error e
    | .ok items_schema =>
        match (do
            let t ← pyIndex items_schema "type"
            let fmt ← pyGet items_schema "format" .null
            bigquery_type t fmt : Except PyErr String) with
        | .error .keyError =>
            -- the missing `items["type"]` key is caught by the same handler
            return (⟨safe_name, "string", "NULLABLE", []⟩, true)
        | .error e => .error e
        | .ok items_type =>
            if items_type = "record" then
              translate_record_to_bq_schema safe_name items_schema "REPEATED"
            else
              return (⟨safe_name, items_type, "REPEATED", []⟩, false)
  else if ← pyIn "object" property_type then
    translate_record_to_bq_schema safe_name schema_property "NULLABLE"
  else
    let result_type ← bigquery_type property_type property_format
    return (⟨safe_name, result_type, "NULLABLE", []⟩, false)
termination_by (sizeOf schema_property, 1)
decreasing_by
  · exact Prod.Lex.left _ _ (pyIndex_sizeOf_lt hitems)
  · exact Prod.Lex.right _ (by omega)

/-- Model of `BaseBigQuerySink._translate_record_to_bq_schema`: recursive descent in
record objects; coerces to a string column when no `properties` are
declared, setting the flag. -/
def translate_record_to_bq_schema (safe_name : String) (schema_property : Json)
    (mode : String) : Except PyErr (SchemaField × Bool) :=
  match hprops : pyGet schema_property "properties" (.obj []) with
  | .error e => .error e
  | .ok (.obj props) =>
      match bq_columns props with
      | .error e => .error e
      | .ok ([], _) =>
          -- Coerced to string because there was no populated `properties` property
          .ok (⟨safe_name, "string", mode, []⟩, true)
      | .ok (fields, flag) => .ok (⟨safe_name, "RECORD", mode, fields⟩, flag)
  | .ok _ => .error .attributeError
termination_by (sizeOf schema_property, 0)
decreasing_by
  · exact Prod.Lex.left _ _ (pyGet_obj_sizeOf_lt hprops)

/-- The list comprehension building `self.bigquery_schema` (and, nested, the
`fields` of a record column): translates each property in order, OR-ing the
coercion flags; the first exception aborts the comprehension. -/
def bq_columns : List (String × Json) → Except PyErr (List SchemaField × Bool)
  | [] => .ok ([], false)
  | (col, t) :: rest => do
      let (f, b) ← jsonschema_prop_to_bq_column col t
      let (fs, bs) ← bq_columns rest
      return (f :: fs, b || bs)
termination_by l => (sizeOf l, 0)
decreasing_by
  · exact Prod.Lex.left _ _ (by simp only [List.cons.sizeOf_spec, Prod.mk.sizeOf_spec]; omega)
  · exact Prod.Lex.left _ _ (by simp only [List.cons.sizeOf_spec]; omega)

end

/-- The list comprehension in `BaseBigQuerySink.__init__` that computes
`self.bigquery_schema` from `self.schema["properties"]`, together with the
final value of `self._contains_coerced_field`. -/
def translate_properties (props : List (String × Json)) :
    Except PyErr (List SchemaField × Bool) :=
  bq_columns props

/-- One character of an orjson-style JSON string encoding (the inputs the
claims exercise contain no other control characters). -/
def escape_char (c : Char) : String :=
  if c = '"' then "\\\""
  else if c = '\\' then "\\\\"
  else if c = '\n' then "\\n"
  else if c = '\t' then "\\t"
  else if c = '\r' then "\\r"
  else String.mk [c]

def escapeString (s : String) : String :=
  String.join (s.toList.map escape_char)

mutual

/-- Model of `orjson.dumps(...).decode("utf-8")`: compact JSON serialization (no
whitespace between tokens). -/
def Json.dumps : Json → String
  | .null => "null"
  | .bool true => "true"
  | .bool false => "false"
  | .num n => toString n
  | .str s => "\"" ++ escapeString s ++ "\""
  | .arr l => "[" ++ dumps_elems l ++ "]"
  | .obj d => "\x7b" ++ dumps_fields d ++ "\x7d"
termination_by j => sizeOf j

def dumps_elems : List Json → String
  | [] => ""
  | [x] => Json.dumps x
  | x :: y :: rest => Json.dumps x ++ "," ++ dumps_elems (y :: rest)
termination_by l => sizeOf l

def dumps_fields : List (String × Json) → String
  | [] => ""
  | [(k, v)] => "\"" ++ escapeString k ++ "\":" ++ Json.dumps v
  | (k, v) :: kv :: rest =>
      "\"" ++ escapeString k ++ "\":" ++ Json.dumps v ++ "," ++ dumps_fields (kv :: rest)
termination_by l => sizeOf l

end

mutual

/-- Model of `BaseBigQuerySink._parse_json_with_props(record, _prop_spec)`: walks the
record together with the schema's property mapping, serializing the
subtrees whose schema was coerced during translation.  `record.items()`
raises `AttributeError` on a non-dict record. -/
def parse_json_with_props (record : Json) (prop_spec_map : Json) :
    Except PyErr Json :=
  match record with
  | .obj entries => do
      let entries' ← parse_entries entries prop_spec_map
      return .obj entries'
  | _ => .error .attributeError
termination_by (sizeOf record, 0)

/-- The `for name, contents in record.items()` loop body of
`_parse_json_with_props`, applied entry by entry (in-place mutation is
modelled by rebuilding the entry list). -/
def parse_entries (entries : List (String × Json)) (prop_spec_map : Json) :
    Except PyErr (List (String × Json)) :=
  match entries with
  | [] => .ok []
  | (name, contents) :: rest => do
      let ps ← pyGetOpt prop_spec_map name
      let newVal ←
        match ps with
        | some prop_spec =>
            if prop_spec.truthy then parse_field prop_spec contents
            else pure contents
        | none => pure contents
      let rest' ← parse_entries rest prop_spec_map
      return ((name, newVal) :: rest')
termination_by (sizeOf entries, 0)
decreasing_by
  · exact Prod.Lex.left _ _ (by simp <;> omega)
  · exact Prod.Lex.left _ _ (by simp <;> omega)

/-- The `if prop_spec:` body for a single field: serialize an object field
whose spec declares no (truthy) `properties`, recurse into one that does,
and for an array field either recurse into each item with
`prop_spec["items"]` as the new property mapping or serialize the array
when `items` is absent or falsy.  `prop_spec["type"]` is a strict access. -/
def parse_field (prop_spec contents : Json) : Except PyErr Json := do
  let t ← pyIndex prop_spec "type"
  let hasObject ← pyIn "object" t
  if hasObject && contents.isObj then
    let props ← pyGetOpt prop_spec "properties"
    if !(match props with | some v => v.truthy | none => false) then
      -- If the prop_spec has no properties, it means it was coerced to a string
      return .str (Json.dumps contents)
    else do
      let sub ← pyIndex prop_spec "properties"
      parse_json_with_props contents sub
  else
    let hasArray ← pyIn "array" t
    if hasArray && contents.isArr then
      let items ← pyGetOpt prop_spec "items"
      if (match items with | some v => v.truthy | none => false) then
        match contents with
        | .arr l => do
            let sub ← pyIndex prop_spec "items"
            let l' ← parse_items l sub
            return .arr l'
        | _ => return contents
      else
        return .str (Json.dumps contents)
    else
      return contents
termination_by (sizeOf contents, 1)
decreasing_by
  · exact Prod.Lex.right _ (by omega)
  · exact Prod.Lex.left _ _ (by simp only [Json.arr.sizeOf_spec]; omega)

/-- The list comprehension
`[self._parse_json_with_props(item, prop_spec["items"]) for item in contents]`:
each item is walked with the *items schema dict* as the new property
mapping. -/
def parse_items (items : List Json) (prop_spec_map : Json) :
    Except PyErr (List Json) :=
  match items with
  | [] => .ok []
  | item :: rest => do
      let item' ← parse_json_with_props item prop_spec_map
      let rest' ← parse_items rest prop_spec_map
      return (item' :: rest')
termination_by (sizeOf items, 0)
decreasing_by
  · exact Prod.Lex.left _ _ (by simp only [List.cons.sizeOf_spec]; omega)
  · exact Prod.Lex.left _ _ (by simp only [List.cons.sizeOf_spec]; omega)

end

/-- Model of `BaseBigQuerySink.preprocess_record(record, context)`: inject metadata
and coerce json paths to strings if needed.  `now` stands for the ISO-8601
rendering of `datetime.datetime.now()` at the call, and `batch_start_time`
for `context.get("batch_start_time", None)` (a datetime is always truthy,
so `x or now` is `getD`). -/
def preprocess_record (add_record_metadata : Bool) (contains_coerced_field : Bool)
    (schema_properties : Json) (now : String) (batch_start_time : Option String)
    (record : List (String × Json)) : Except PyErr Json :=
  let record :=
    if add_record_metadata then
      let r1 := if (dictGet record "_sdc_extracted_at").isNone
        then dictSet record "_sdc_extracted_at" (.str now) else record
      let r2 := if (dictGet r1 "_sdc_received_at").isNone
        then dictSet r1 "_sdc_received_at" (.str now) else r1
      r2
    else record
  let record := dictSet record "_sdc_batched_at" (.str (batch_start_time.getD now))
  if contains_coerced_field then
    parse_json_with_props (.obj record) schema_properties
  else
    .ok (.obj record)

/-- ASCII upper-casing (`str.upper()` on the type/mode strings). -/
def strUpper (s : String) : String :=
  String.mk (s.toList.map Char.toUpper)

mutual

/-- The equality used by Python's `field in table.schema`:
`bigquery.SchemaField.__eq__` compares the field key — name, upper-cased
field type and mode, and the nested fields. -/
def fieldKeyEq : SchemaField → SchemaField → Bool
  | ⟨n, t, m, fs⟩, ⟨n', t', m', fs'⟩ =>
      n == n' && strUpper t == strUpper t' && strUpper m == strUpper m' &&
        fieldsKeyEq fs fs'
termination_by a _ => sizeOf a

def fieldsKeyEq : List SchemaField → List SchemaField → Bool
  | [], [] => true
  | a :: as, b :: bs => fieldKeyEq a b && fieldsKeyEq as bs
  | _, _ => false
termination_by l _ => sizeOf l

end

/-- The diff loop of `BaseBigQuerySink.start_batch`: the desired fields of
`self.bigquery_schema` that are not (by `SchemaField` equality) in the live
`table.schema`, in desired order. -/
def fields_to_add (bigquery_schema live_schema : List SchemaField) : List SchemaField :=
  bigquery_schema.filter (fun f => !(live_schema.any (fun g => fieldKeyEq f g)))

/-- The table schema after `start_batch` runs against a live table with
schema `live_schema`: when the diff is non-empty the live schema is copied
and the missing fields appended, then persisted by one `update_table`
call; otherwise the live schema is untouched. -/
def start_batch_schema (live_schema bigquery_schema : List SchemaField) :
    List SchemaField :=
  if (fields_to_add bigquery_schema live_schema).isEmpty then live_schema
  else live_schema ++ fields_to_add bigquery_schema live_schema

/-- Whether `start_batch` issues its (single) `update_table` call. -/
def start_batch_update_called (live_schema bigquery_schema : List SchemaField) : Bool :=
  !(fields_to_add bigquery_schema live_schema).isEmpty

/-- A log line emitted by `BigQueryStreamingSink.process_batch`. -/
inductive LogMsg where
  | rows_added (stream_name : String)
  | insert_errors (errors : List Json)
deriving Repr

/-- The observable effects of one `BigQueryStreamingSink.process_batch`
call: how many times `insert_rows_json` ran, what was logged, whether an
exception propagated, the final record buffer, and whether the batch was
marked drained. -/
structure StreamingBatchResult where
  insert_calls : Nat
  logs : List LogMsg
  raised : Bool
  records_to_drain : List Json
  drained : Bool
deriving Repr

/-- Model of `BigQueryStreamingSink.process_batch` (lines 210-232 of `sinks.py`),
with the external `insert_rows_json` return value passed in as
`insert_errors`: an empty batch returns immediately; otherwise the rows
are inserted once, the outcome is logged (errors are logged, not raised
and not retried), the batch is marked drained and the buffer reset. -/
def streaming_process_batch (stream_name : String) (records_to_drain : List Json)
    (current_size : Nat) (insert_errors : List Json) : StreamingBatchResult :=
  if current_size = 0 then
    ⟨0, [], false, records_to_drain, false⟩
  else
    ⟨1,
      [if insert_errors.isEmpty then .rows_added stream_name
       else .insert_errors insert_errors],
      false, [], true⟩

/-- A schema (the `properties` mapping of a stream) whose translation
coerces a field nested inside array items: property `a` is an array of
records whose nested property `b` is an object with no declared
properties. -/
def c1_schema_props : List (String × Json) :=
  [("a", .obj [("type", .arr [.str "array"]),
    ("items", .obj [("type", .arr [.str "object"]),
      ("properties", .obj [("b", .obj [("type", .arr [.str "object"])])])])])]

/-- A record shaped according to `c1_schema_props`: field `a` holds one
item whose field `b` holds an object. -/
def c1_record : Json := .obj [("a", .arr [.obj [("b", .obj [("c", .num 2)])]])]

attribute [simp] dictGet dictGetD dictSet pyGet pyGetOpt pyIndex jsonEqStr
  listContainsSub pyIn Json.truthy Json.isObj Json.isArr sanitize_char
  safe_column_name translate_properties escape_char escapeString
  strUpper fields_to_add start_batch_schema start_batch_update_called
  streaming_process_batch preprocess_record
  Except.instMonad Except.bind Except.pure List.isPrefixOf

end TargetBigQuery

namespace TargetBigQuery

/-! General lemmas about the dictionary model and the embedded functions. -/

theorem dictGet_dictSet_same (d : List (String × Json)) (k : String) (v : Json) :
    dictGet (dictSet d k v) k = some v := by
  induction d with
  | nil => simp [dictGet, dictSet]
  | cons kv rest ih =>
      obtain ⟨k', v'⟩ := kv
      by_cases hk : k' = k
      · simp [dictGet, dictSet, hk]
      · simp [dictGet, dictSet, hk, ih]

theorem dictGet_dictSet_other (d : List (String × Json)) (k k' : String) (v : Json)
    (h : k' ≠ k) : dictGet (dictSet d k v) k' = dictGet d k' := by
  have hne : k ≠ k' := fun hh => h hh.symm
  induction d with
  | nil =>
      simp only [dictSet, dictGet]
      rw [if_neg hne]
  | cons kv rest ih =>
      obtain ⟨k'', v''⟩ := kv
      by_cases hk : k'' = k
      · subst hk
        simp only [dictSet, if_pos rfl, dictGet]
        rw [if_neg hne, if_neg hne]
      · simp only [dictSet, if_neg hk, dictGet]
        by_cases hk2 : k'' = k'
        · rw [if_pos hk2, if_pos hk2]
        · rw [if_neg hk2, if_neg hk2]
          exact ih

theorem pyIn_error {n : String} {c : Json} {e : PyErr} (h : pyIn n c = .error e) :
    e = .typeError := by
  cases c <;> simp [pyIn] at h <;> exact h.symm

theorem bigquery_type_error {t f : Json} {e : PyErr} (h : bigquery_type t f = .error e) :
    e = .typeError := by
  rw [bigquery_type] at h
  cases t <;>
    simp only [jsonEqStr, pyIn, Except.instMonad, Except.bind, Except.pure] at h <;>
    split_ifs at h <;> simp_all

theorem charOfNat_isLower (n : Nat) (h1 : 97 ≤ n) (h2 : n ≤ 122) :
    (Char.ofNat n).isLower = true := by
  have hv : n.isValidChar := Or.inl (by omega)
  simp only [Char.isLower, Char.ofNat, dif_pos hv, Char.ofNatAux,
    Bool.and_eq_true, decide_eq_true_eq, ge_iff_le, UInt32.le_def, BitVec.le_def]
  exact ⟨h1, h2⟩

theorem toLower_isLower_of_isUpper (c : Char) (h : c.isUpper = true) :
    (c.toLower).isLower = true := by
  simp only [Char.isUpper, Bool.and_eq_true, decide_eq_true_eq] at h
  obtain ⟨h1, h2⟩ := h
  have h1' : 65 ≤ c.toNat := by simpa [Char.toNat, UInt32.le_def] using h1
  have h2' : c.toNat ≤ 90 := by simpa [Char.toNat, UInt32.le_def] using h2
  simp only [Char.toLower, ge_iff_le, h1', h2', and_self, if_pos]
  exact charOfNat_isLower _ (by omega) (by omega)

theorem toLower_eq_self_of_toNat_notUpper (c : Char)
    (h : ¬(65 ≤ c.toNat ∧ c.toNat ≤ 90)) : c.toLower = c := by
  simp only [Char.toLower, ge_iff_le]
  rw [if_neg h]

/-- Every character emitted by `sanitize_char` is a lowercase letter, a
digit, or an underscore. -/
theorem sanitize_char_ok (c : Char) :
    ((sanitize_char c).isLower || (sanitize_char c).isDigit ||
      (sanitize_char c == '_')) = true := by
  rw [sanitize_char]
  by_cases h : (c.isAlphanum || c == '_') = true
  · rw [if_pos h]
    rcases Bool.or_eq_true_iff.mp h with halnum | hund
    · rcases Bool.or_eq_true_iff.mp (by simpa [Char.isAlphanum] using halnum :
        (c.isAlpha || c.isDigit) = true) with halpha | hdig
      · rcases Bool.or_eq_true_iff.mp (by simpa [Char.isAlpha] using halpha :
          (c.isUpper || c.isLower) = true) with hup | hlow
        · simp [toLower_isLower_of_isUpper c hup]
        · have hl : 97 ≤ c.toNat ∧ c.toNat ≤ 122 := by
            simpa [Char.isLower, Char.toNat, UInt32.le_def, Bool.and_eq_true,
              decide_eq_true_eq, BitVec.le_def] using hlow
          rw [toLower_eq_self_of_toNat_notUpper c (by omega)]
          simp [hlow]
      · have hd : 48 ≤ c.toNat ∧ c.toNat ≤ 57 := by
          simpa [Char.isDigit, Char.toNat, UInt32.le_def, Bool.and_eq_true,
            decide_eq_true_eq, BitVec.le_def] using hdig
        rw [toLower_eq_self_of_toNat_notUpper c (by omega)]
        simp [hdig]
    · have : c = '_' := by simpa using hund
      subst this
      decide
  · rw [if_neg h]
    decide

/-- Every character of a sanitized column name is in the class
`[a-z0-9_]`. -/
theorem safe_column_name_chars (s : String) :
    (safe_column_name s).toList.all
      (fun c => c.isLower || c.isDigit || c == '_') = true := by
  rw [List.all_eq_true]
  intro c hc
  simp only [safe_column_name, String.toList, List.mem_map] at hc
  obtain ⟨a, _, rfl⟩ := hc
  exact sanitize_char_ok a

/-- Record translation always names its column by the `safe_name` it was
given. -/
theorem translate_record_name {sn : String} {p : Json} {m : String}
    {f : SchemaField} {b : Bool}
    (h : translate_record_to_bq_schema sn p m = .ok (f, b)) : f.name = sn := by
  rw [translate_record_to_bq_schema] at h
  split at h
  · cases h
  · split at h
    · cases h
    · cases h; rfl
    · cases h; rfl
  · cases h

/-- Every column produced by property translation is named by sanitizing
the property's name (this applies at every nesting level, since nested
columns are produced by the same function). -/
theorem jsonschema_prop_name {n : String} {p : Json} {f : SchemaField} {b : Bool}
    (h : jsonschema_prop_to_bq_column n p = .ok (f, b)) :
    f.name = safe_column_name n := by
  rw [jsonschema_prop_to_bq_column] at h
  cases hpt : pyGet p "type" (.str "string") with
  | error e => rw [hpt] at h; simp [Except.instMonad, Except.bind] at h
  | ok pt =>
      rw [hpt] at h
      simp only [Except.instMonad, Except.bind] at h
      cases hpf : pyGet p "format" .null with
      | error e => rw [hpf] at h; simp at h
      | ok fmt =>
          rw [hpf] at h
          simp only at h
          cases hin : pyIn "array" pt with
          | error e => rw [hin] at h; simp at h
          | ok tb =>
              rw [hin] at h
              simp only at h
              cases tb with
              | true =>
                  simp only [if_true] at h
                  split at h
                  · simp only [Except.pure, Except.ok.injEq, Prod.mk.injEq] at h
                    rw [← h.1]
                  · simp at h
                  · split at h
                    · simp only [Except.pure, Except.ok.injEq, Prod.mk.injEq] at h
                      rw [← h.1]
                    · simp at h
                    · split at h
                      · exact translate_record_name h
                      · simp only [Except.pure, Except.ok.injEq, Prod.mk.injEq] at h
                        rw [← h.1]
              | false =>
                  simp only [Bool.false_eq_true, if_false] at h
                  cases hob : pyIn "object" pt with
                  | error e => rw [hob] at h; simp at h
                  | ok ob =>
                      rw [hob] at h
                      simp only at h
                      cases ob with
                      | true =>
                          simp only [if_true] at h
                          exact translate_record_name h
                      | false =>
                          simp only [Bool.false_eq_true, if_false] at h
                          cases hbt : bigquery_type pt fmt with
                          | error e => rw [hbt] at h; simp at h
                          | ok rt =>
                              rw [hbt] at h
                              simp only [Except.pure, Except.ok.injEq,
                                Prod.mk.injEq] at h
                              rw [← h.1]

/-! Claim theorems. -/

/-- Claim C1 (code bug): the record-coercion walk is claimed to transform
exactly the fields that schema translation coerced, at any nesting depth.
On `c1_schema_props` translation coerces the nested field `b` inside the
array items of `a` (the coercion flag is set and `b` becomes a string
column), yet the coercer — which passes the *items schema dict* where a
properties mapping is expected — leaves the record completely unchanged:
the set of transformed fields differs from the set of coerced columns. -/
theorem C1_coercer_translation_divergence :
    translate_properties c1_schema_props =
      .ok ([⟨"a", "RECORD", "REPEATED", [⟨"b", "string", "NULLABLE", []⟩]⟩], true) ∧
    parse_json_with_props c1_record (.obj c1_schema_props) = .ok c1_record := by
  constructor
  · simp [c1_schema_props, translate_properties, bq_columns, jsonschema_prop_to_bq_column,
      translate_record_to_bq_schema, bigquery_type]
  · simp [c1_schema_props, c1_record, parse_json_with_props, parse_entries, parse_field,
      parse_items]

/-- Claim C2, counterexample: an array property whose `items` sub-schema is
present (an empty object) is still coerced to a nullable string column with
the flag set, so coercion does not occur exactly when `items` is absent. -/
theorem C2_counterexample :
    dictGet [("type", Json.arr [Json.str "array"]), ("items", Json.obj [])] "items" =
      some (.obj []) ∧
    jsonschema_prop_to_bq_column "a"
        (.obj [("type", .arr [.str "array"]), ("items", .obj [])]) =
      .ok (⟨"a", "string", "NULLABLE", []⟩, true) := by
  constructor
  · rfl
  · simp [jsonschema_prop_to_bq_column, bigquery_type]

/-- Claim C2, amended: for a property whose declared type contains "array",
translation coerces (nullable string column, flag set) when `items` is
absent OR when `items` is a dict without a `"type"` key; when the items
type resolves to record it recurses into the items (and that recursion
itself coerces — to a string column in the same mode, flag set — when the
items declare no properties); otherwise it emits a repeated column of the
mapped item type without setting the flag; a non-dict `items` raises
`TypeError`. -/
theorem C2_amended (name : String) (d : List (String × Json))
    (harr : pyIn "array" (dictGetD d "type" (.str "string")) = .ok true) :
    (jsonschema_prop_to_bq_column name (.obj d) =
      match dictGet d "items" with
      | none => .ok (⟨safe_column_name name, "string", "NULLABLE", []⟩, true)
      | some (.obj id) =>
        (match dictGet id "type" with
         | none => .ok (⟨safe_column_name name, "string", "NULLABLE", []⟩, true)
         | some t =>
           (match bigquery_type t (dictGetD id "format" .null) with
            | .error e => .error e
            | .ok it =>
              if it = "record" then
                translate_record_to_bq_schema (safe_column_name name) (.obj id) "REPEATED"
              else .ok (⟨safe_column_name name, it, "REPEATED", []⟩, false)))
      | some _ => .error .typeError) ∧
    (∀ sn its mode, pyGet its "properties" (.obj []) = .ok (.obj []) →
      translate_record_to_bq_schema sn its mode = .ok (⟨sn, "string", mode, []⟩, true)) := by
  constructor
  · rw [jsonschema_prop_to_bq_column]
    simp only [pyGet, Except.instMonad, Except.bind, Except.pure, harr, if_true]
    split
    next heq =>
      cases hd : dictGet d "items" with
      | none => simp [hd]
      | some items => simp [pyIndex, hd] at heq
    next e he heq =>
      cases hd : dictGet d "items" with
      | none => simp [pyIndex, hd] at heq; exact absurd heq.symm he
      | some items => simp [pyIndex, hd] at heq
    next items heq =>
      have hd : dictGet d "items" = some items := by
        cases hd2 : dictGet d "items" with
        | none => simp [pyIndex, hd2] at heq
        | some i2 =>
            simp only [pyIndex, hd2, Except.ok.injEq] at heq
            exact congrArg some heq
      cases items with
      | obj id =>
          cases hty : dictGet id "type" with
          | none =>
              simp [pyIndex, pyGet, hd, hty, Except.instMonad, Except.bind, Except.pure]
          | some t =>
              cases hbt : bigquery_type t (dictGetD id "format" .null) with
              | error e =>
                  have hbt2 : bigquery_type t ((dictGet id "format").getD .null) =
                      .error e := by
                    simpa [dictGetD] using hbt
                  cases e with
                  | keyError => exact absurd (bigquery_type_error hbt) (by decide)
                  | typeError =>
                      simp [pyIndex, pyGet, hd, hty, hbt2,
                        Except.instMonad, Except.bind, Except.pure]
                  | attributeError =>
                      simp [pyIndex, pyGet, hd, hty, hbt2,
                        Except.instMonad, Except.bind, Except.pure]
              | ok it =>
                  have hbt2 : bigquery_type t ((dictGet id "format").getD .null) =
                      .ok it := by
                    simpa [dictGetD] using hbt
                  by_cases hrec : it = "record"
                  · simp [pyIndex, pyGet, hd, hty, hbt2, hrec,
                      Except.instMonad, Except.bind, Except.pure]
                  · simp [pyIndex, pyGet, hd, hty, hbt2, hrec,
                      Except.instMonad, Except.bind, Except.pure]
      | null => simp [pyIndex, hd, Except.instMonad, Except.bind, Except.pure]
      | bool b => simp [pyIndex, hd, Except.instMonad, Except.bind, Except.pure]
      | num n => simp [pyIndex, hd, Except.instMonad, Except.bind, Except.pure]
      | str s => simp [pyIndex, hd, Except.instMonad, Except.bind, Except.pure]
      | arr l => simp [pyIndex, hd, Except.instMonad, Except.bind, Except.pure]
  · intro sn its mode h
    rw [translate_record_to_bq_schema, h]
    simp [bq_columns]

/-- Claim C2, witness: an array property with no `items` sub-schema is
coerced to a nullable string column with the flag set. -/
theorem C2_amended_witness :
    pyIn "array" (dictGetD [("type", Json.arr [Json.str "array"])] "type" (.str "string")) =
      .ok true ∧
    jsonschema_prop_to_bq_column "a" (.obj [("type", .arr [.str "array"])]) =
      .ok (⟨"a", "string", "NULLABLE", []⟩, true) := by
  refine ⟨by rfl, ?_⟩
  have h := (C2_amended "a" [("type", .arr [.str "array"])] (by rfl)).1
  simpa using h

end TargetBigQuery

namespace TargetBigQuery

/-- Claim C3, counterexample: `start_batch` does not diff by column name.
Live column `a INTEGER` and desired column `a string` share their name (a
by-name diff would append nothing), yet the code appends the desired `a`,
producing two columns named `a`. -/
theorem C3_counterexample :
    (∀ f ∈ ([⟨"a", "string", "NULLABLE", []⟩] : List SchemaField),
       ([⟨"a", "INTEGER", "NULLABLE", []⟩] : List SchemaField).any
         (fun g => g.name == f.name)) ∧
    start_batch_schema [⟨"a", "INTEGER", "NULLABLE", []⟩]
        [⟨"a", "string", "NULLABLE", []⟩] =
      [⟨"a", "INTEGER", "NULLABLE", []⟩, ⟨"a", "string", "NULLABLE", []⟩] := by
  constructor
  · intro f hf
    simp only [List.mem_singleton] at hf
    subst hf
    decide
  · simp [start_batch_schema, fields_to_add, fieldKeyEq, fieldsKeyEq]

/-- Claim C3, amended: when the table exists, `start_batch` diffs the
desired columns against the live schema by full structural `SchemaField`
equality (name, type and mode case-insensitively, nested fields) rather
than by name; the result is exactly the live schema followed by the
desired columns with no structurally equal live counterpart (so nothing
is removed, reordered or retyped), and the single schema-update call is
made exactly when that appended list is non-empty.  In the claim's
`{a,b}` live / `{a,b,c}` desired scenario with `a`, `b` unchanged the
result is exactly `{a,b,c}`. -/
theorem C3_amended (live desired : List SchemaField) :
    start_batch_schema live desired =
      live ++ desired.filter (fun f => !(live.any (fun g => fieldKeyEq f g))) ∧
    (start_batch_update_called live desired = true ↔
      desired.filter (fun f => !(live.any (fun g => fieldKeyEq f g))) ≠ []) ∧
    start_batch_schema
        [⟨"a", "STRING", "NULLABLE", []⟩, ⟨"b", "INTEGER", "NULLABLE", []⟩]
        [⟨"a", "STRING", "NULLABLE", []⟩, ⟨"b", "INTEGER", "NULLABLE", []⟩,
         ⟨"c", "BOOLEAN", "NULLABLE", []⟩] =
      [⟨"a", "STRING", "NULLABLE", []⟩, ⟨"b", "INTEGER", "NULLABLE", []⟩,
       ⟨"c", "BOOLEAN", "NULLABLE", []⟩] := by
  refine ⟨?_, ?_, ?_⟩
  · rw [start_batch_schema, fields_to_add]
    split
    next hemp =>
      rw [List.isEmpty_iff] at hemp
      rw [hemp, List.append_nil]
    next => rfl
  · rw [start_batch_update_called, fields_to_add]
    simp [List.isEmpty_iff]
  · simp [start_batch_schema, fields_to_add, fieldKeyEq, fieldsKeyEq]

/-- Claim C3, witness: the amended statement applied to an empty live
schema and one desired column. -/
theorem C3_amended_witness :
    start_batch_schema [] [⟨"c", "BOOLEAN", "NULLABLE", []⟩] =
      [] ++ [(⟨"c", "BOOLEAN", "NULLABLE", []⟩ : SchemaField)].filter
        (fun f => !(([] : List SchemaField).any (fun g => fieldKeyEq f g))) :=
  (C3_amended [] [⟨"c", "BOOLEAN", "NULLABLE", []⟩]).1

/-- Claim C4, counterexample: with `add_record_metadata` disabled (and no
coerced fields), preprocessing an empty record still injects the
`_sdc_batched_at` metadata column. -/
theorem C4_counterexample :
    preprocess_record false false (.obj []) "T0" none [] =
      .ok (.obj [("_sdc_batched_at", .str "T0")]) := by
  simp

/-- Claim C4, amended: `_sdc_extracted_at` and `_sdc_received_at` are
injected only when `add_record_metadata` is enabled and only if absent
from the record, but `_sdc_batched_at` is set on every record — from the
batch start time or, failing that, the current time — regardless of the
option; with the option disabled no key other than `_sdc_batched_at` is
touched.  (Stated for sinks whose coercion flag is unset, so that the
metadata injection is the whole effect.) -/
theorem C4_amended (meta : Bool) (sp : Json) (now : String) (bs : Option String)
    (record : List (String × Json)) :
    ∃ r, preprocess_record meta false sp now bs record = .ok (.obj r) ∧
      dictGet r "_sdc_batched_at" = some (.str (bs.getD now)) ∧
      (meta = true →
        dictGet r "_sdc_extracted_at" =
          some ((dictGet record "_sdc_extracted_at").getD (.str now)) ∧
        dictGet r "_sdc_received_at" =
          some ((dictGet record "_sdc_received_at").getD (.str now))) ∧
      (meta = false → ∀ k, k ≠ "_sdc_batched_at" → dictGet r k = dictGet record k) := by
  cases meta with
  | false =>
      refine ⟨dictSet record "_sdc_batched_at" (.str (bs.getD now)), by simp, ?_, ?_, ?_⟩
      · exact dictGet_dictSet_same ..
      · intro h; cases h
      · intro _ k hk
        exact dictGet_dictSet_other record "_sdc_batched_at" k _ hk
  | true =>
      set r1 := if (dictGet record "_sdc_extracted_at").isNone
        then dictSet record "_sdc_extracted_at" (.str now) else record with hr1
      set r2 := if (dictGet r1 "_sdc_received_at").isNone
        then dictSet r1 "_sdc_received_at" (.str now) else r1 with hr2
      refine ⟨dictSet r2 "_sdc_batched_at" (.str (bs.getD now)),
        by simp [preprocess_record, ← hr1, ← hr2], ?_, ?_, ?_⟩
      · exact dictGet_dictSet_same ..
      · intro _
        have hext1 : dictGet r1 "_sdc_extracted_at" =
            some ((dictGet record "_sdc_extracted_at").getD (.str now)) := by
          rw [hr1]
          cases he : dictGet record "_sdc_extracted_at" with
          | none => simp [he, dictGet_dictSet_same]
          | some v => simp [he]
        have hrec1 : dictGet r1 "_sdc_received_at" = dictGet record "_sdc_received_at" := by
          rw [hr1]
          cases he : dictGet record "_sdc_extracted_at" with
          | none =>
              simp only [he, Option.isNone_none, if_pos]
              exact dictGet_dictSet_other record _ _ _ (by decide)
          | some v => simp [he]
        constructor
        · rw [dictGet_dictSet_other _ _ _ _ (by decide), hr2]
          cases he : dictGet r1 "_sdc_received_at" with
          | none =>
              simp only [he, Option.isNone_none, if_pos]
              rw [dictGet_dictSet_other _ _ _ _ (by decide)]
              exact hext1
          | some v => simp [he, hext1]
        · rw [dictGet_dictSet_other _ _ _ _ (by decide), hr2]
          cases he : dictGet r1 "_sdc_received_at" with
          | none => simp [he, dictGet_dictSet_same, ← hrec1, he]
          | some v => simp [he, ← hrec1, he]
      · intro h; cases h

/-- Claim C4, witness: the amended statement at a concrete enabled-metadata
call. -/
theorem C4_amended_witness :
    ∃ r, preprocess_record true false (.obj []) "T1" (some "B") [] = .ok (.obj r) ∧
      dictGet r "_sdc_batched_at" = some (.str ((some "B").getD "T1")) ∧
      (true = true →
        dictGet r "_sdc_extracted_at" =
          some ((dictGet [] "_sdc_extracted_at").getD (.str "T1")) ∧
        dictGet r "_sdc_received_at" =
          some ((dictGet [] "_sdc_received_at").getD (.str "T1"))) ∧
      (true = false → ∀ k, k ≠ "_sdc_batched_at" → dictGet r k = dictGet [] k) :=
  C4_amended true (.obj []) "T1" (some "B") []

/-- Claim C5: the type mapper resolves every type set and format by
first-match-wins precedence — format date-time, date, time, then type-set
membership of number, integer together with string, integer, boolean,
object, and finally string — and is pure and total (it returns `.ok` on
every type set). -/
theorem C5_type_mapper_precedence (ts : List Json) (fmt : Json) :
    bigquery_type (.arr ts) fmt =
      .ok (if jsonEqStr fmt "date-time" then "timestamp"
        else if jsonEqStr fmt "date" then "date"
        else if jsonEqStr fmt "time" then "time"
        else if ts.any (fun e => jsonEqStr e "number") then "numeric"
        else if ts.any (fun e => jsonEqStr e "integer") &&
            ts.any (fun e => jsonEqStr e "string") then "string"
        else if ts.any (fun e => jsonEqStr e "integer") then "integer"
        else if ts.any (fun e => jsonEqStr e "boolean") then "boolean"
        else if ts.any (fun e => jsonEqStr e "object") then "record"
        else "string") := by
  simp only [bigquery_type, pyIn, Except.instMonad, Except.bind, Except.pure]
  split_ifs <;> simp_all

end TargetBigQuery

namespace TargetBigQuery

/-- Claim C6, counterexample: translation does raise for a type-confused
substructure — a property whose `"type"` value is the number 5 makes the
membership test `"array" in 5` raise `TypeError`, which aborts the schema
translation. -/
theorem C6_counterexample :
    translate_properties [("p", .obj [("type", .num 5)])] = .error .typeError := by
  simp [translate_properties, bq_columns, jsonschema_prop_to_bq_column]

/-- Claim C6, amended: whenever schema translation returns at all (no
`TypeError`/`AttributeError` from a type-confused substructure), it
returns exactly one column definition per declared property — in
particular a non-empty column list when the schema declares at least one
property.  Merely underspecified substructures (missing `items`, missing
`properties`, missing `type`) never raise; they degrade via coercion. -/
theorem C6_amended (props : List (String × Json)) (cols : List SchemaField) (flag : Bool)
    (h : translate_properties props = .ok (cols, flag)) :
    cols.length = props.length ∧ (props ≠ [] → cols ≠ []) := by
  induction props generalizing cols flag with
  | nil =>
      simp only [translate_properties, bq_columns, Except.ok.injEq] at h
      cases h
      simp
  | cons p rest ih =>
      obtain ⟨col, t⟩ := p
      rw [translate_properties, bq_columns] at h
      cases hc : jsonschema_prop_to_bq_column col t with
      | error e => rw [hc] at h; cases h
      | ok fb =>
          obtain ⟨f, b⟩ := fb
          rw [hc] at h
          cases hr : bq_columns rest with
          | error e =>
              rw [hr] at h
              simp [Except.instMonad, Except.bind] at h
          | ok fsbs =>
              obtain ⟨fs, bs⟩ := fsbs
              rw [hr] at h
              simp only [Except.instMonad, Except.bind, Except.pure, Except.ok.injEq] at h
              cases h
              have := ih fs bs (by rw [translate_properties]; exact hr)
              simp [this.1]

/-- Claim C6, witness: the amended statement at a one-property schema. -/
theorem C6_amended_witness :
    ([(⟨"p", "string", "NULLABLE", []⟩ : SchemaField)]).length =
      ([("p", (Json.obj [] : Json))]).length ∧
    (([("p", (Json.obj [] : Json))] : List (String × Json)) ≠ [] →
      ([(⟨"p", "string", "NULLABLE", []⟩ : SchemaField)]) ≠ []) :=
  C6_amended [("p", .obj [])] [⟨"p", "string", "NULLABLE", []⟩] false
    (by simp [translate_properties, bq_columns, jsonschema_prop_to_bq_column,
      bigquery_type])

/-- Claim C7: a schema with an object-typed property declaring no
properties translates to a nullable string column with the coercion flag
set, and a record whose value for that field is the object with key "a"
mapped to 1 is rewritten by the record coercer so that the field's value
is the compact JSON serialization of the original value. -/
theorem C7_coercion_round_trip (name : String) :
    translate_properties [(name, .obj [("type", .arr [.str "object"])])] =
      .ok ([⟨safe_column_name name, "string", "NULLABLE", []⟩], true) ∧
    parse_json_with_props (.obj [(name, .obj [("a", .num 1)])])
        (.obj [(name, .obj [("type", .arr [.str "object"])])]) =
      .ok (.obj [(name, .str "\x7b\"a\":1\x7d")]) := by
  constructor
  · simp [bq_columns, jsonschema_prop_to_bq_column, translate_record_to_bq_schema,
      bigquery_type]
  · simp [parse_json_with_props, parse_entries, parse_field, Json.dumps, dumps_fields]
    decide

/-- Claim C8, counterexample: translation accepts an empty property name
(yielding the empty column name, which does not match `[a-z0-9_]+`), and
two distinct property names that sanitize to the same identifier yield
duplicate column names in one column list. -/
theorem C8_counterexample :
    translate_properties [("a b", .obj [("type", .arr [.str "integer"])]),
      ("a_b", .obj [("type", .arr [.str "integer"])]),
      ("", .obj [("type", .arr [.str "integer"])])] =
      .ok ([⟨"a_b", "integer", "NULLABLE", []⟩, ⟨"a_b", "integer", "NULLABLE", []⟩,
            ⟨"", "integer", "NULLABLE", []⟩], false) := by
  simp [translate_properties, bq_columns, jsonschema_prop_to_bq_column, bigquery_type]

/-- Claim C8, amended: every character of every produced column name is in
the class `[a-z0-9_]` (the name is the sanitized property name at every
nesting level), but the name may be empty and distinct property names may
sanitize to the same identifier, so neither the `+` of the regex nor
uniqueness within a parent's column list holds. -/
theorem C8_amended :
    (∀ s : String, (safe_column_name s).toList.all
      (fun c => c.isLower || c.isDigit || c == '_') = true) ∧
    (∀ (n : String) (p : Json) (f : SchemaField) (b : Bool),
      jsonschema_prop_to_bq_column n p = .ok (f, b) → f.name = safe_column_name n) :=
  ⟨safe_column_name_chars, fun _ _ _ _ h => jsonschema_prop_name h⟩

/-- Claim C8, witness: the amended statement at the property name "A b". -/
theorem C8_amended_witness :
    ((safe_column_name "A b").toList.all
      (fun c => c.isLower || c.isDigit || c == '_') = true) ∧
    (⟨"a_b", "string", "NULLABLE", []⟩ : SchemaField).name = safe_column_name "A b" :=
  ⟨C8_amended.1 "A b",
    C8_amended.2 "A b" (.obj []) ⟨"a_b", "string", "NULLABLE", []⟩ false
      (by simp [jsonschema_prop_to_bq_column, bigquery_type])⟩

/-- Claim C9: when the synchronous row-insert call of the streaming sink
returns a non-empty list of per-row error descriptors, the sink logs the
errors, still considers the batch drained with the record buffer reset,
calls the insert exactly once (no retry) and raises nothing. -/
theorem C9_streaming_partial_failure (stream_name : String) (records : List Json)
    (current_size : Nat) (errors : List Json)
    (hsize : current_size ≠ 0) (herr : errors ≠ []) :
    (streaming_process_batch stream_name records current_size errors).logs =
        [.insert_errors errors] ∧
    (streaming_process_batch stream_name records current_size errors).records_to_drain =
        [] ∧
    (streaming_process_batch stream_name records current_size errors).drained = true ∧
    (streaming_process_batch stream_name records current_size errors).insert_calls = 1 ∧
    (streaming_process_batch stream_name records current_size errors).raised = false := by
  simp [streaming_process_batch, hsize, herr]

/-- Claim C9, witness: the statement at a one-row batch whose insert
reports one failed row. -/
theorem C9_witness :
    (1 : Nat) ≠ 0 ∧
    ([Json.obj [("index", .num 2), ("reason", .str "type_mismatch")]] : List Json) ≠ [] ∧
    ((streaming_process_batch "s" [Json.obj []] 1
        [Json.obj [("index", .num 2), ("reason", .str "type_mismatch")]]).logs =
        [.insert_errors [Json.obj [("index", .num 2), ("reason", .str "type_mismatch")]]] ∧
      (streaming_process_batch "s" [Json.obj []] 1
        [Json.obj [("index", .num 2), ("reason", .str "type_mismatch")]]).records_to_drain =
        [] ∧
      (streaming_process_batch "s" [Json.obj []] 1
        [Json.obj [("index", .num 2), ("reason", .str "type_mismatch")]]).drained = true ∧
      (streaming_process_batch "s" [Json.obj []] 1
        [Json.obj [("index", .num 2), ("reason", .str "type_mismatch")]]).insert_calls = 1 ∧
      (streaming_process_batch "s" [Json.obj []] 1
        [Json.obj [("index", .num 2), ("reason", .str "type_mismatch")]]).raised = false) :=
  ⟨by decide, by simp,
    C9_streaming_partial_failure "s" [Json.obj []] 1
      [Json.obj [("index", .num 2), ("reason", .str "type_mismatch")]]
      (by decide) (by simp)⟩

/-- Claim C10, counterexample: an array property whose items declare the
union type number-integer-string (which contains both "integer" and
"string") is translated to a REPEATED numeric column, not a string one:
the "number" precedence fires first. -/
theorem C10_counterexample :
    jsonschema_prop_to_bq_column "a" (.obj [("type", .arr [.str "array"]),
      ("items", .obj [("type", .arr [.str "number", .str "integer", .str "string"])])]) =
      .ok (⟨"a", "numeric", "REPEATED", []⟩, false) := by
  simp [jsonschema_prop_to_bq_column, bigquery_type]

/-- Claim C10, amended: for an array property whose items declare a union
type containing both "integer" and "string" but no "number" (and no
format), translation emits a REPEATED string column and does not set the
coercion flag: item unions resolve through the same first-match-wins
precedence as top-level unions rather than being coerced. -/
theorem C10_amended (name : String) (ts : List Json)
    (hint : ts.any (fun e => jsonEqStr e "integer") = true)
    (hstr : ts.any (fun e => jsonEqStr e "string") = true)
    (hnum : ts.any (fun e => jsonEqStr e "number") = false) :
    jsonschema_prop_to_bq_column name (.obj [("type", .arr [.str "array"]),
      ("items", .obj [("type", .arr ts)])]) =
      .ok (⟨safe_column_name name, "string", "REPEATED", []⟩, false) := by
  have hint2 : ∃ x ∈ ts, jsonEqStr x "integer" = true := by simpa using hint
  have hstr2 : ∃ x ∈ ts, jsonEqStr x "string" = true := by simpa using hstr
  have hnum2 : ¬ ∃ x ∈ ts, jsonEqStr x "number" = true := by simpa using hnum
  simp only [jsonEqStr] at hint2 hstr2 hnum2
  simp [jsonschema_prop_to_bq_column, bigquery_type, hint2, hstr2, hnum2]

/-- Claim C10, witness: the amended statement at the union type
integer-string. -/
theorem C10_amended_witness :
    ([Json.str "integer", Json.str "string"].any (fun e => jsonEqStr e "integer") = true) ∧
    ([Json.str "integer", Json.str "string"].any (fun e => jsonEqStr e "string") = true) ∧
    ([Json.str "integer", Json.str "string"].any (fun e => jsonEqStr e "number") = false) ∧
    jsonschema_prop_to_bq_column "tags" (.obj [("type", .arr [.str "array"]),
      ("items", .obj [("type", .arr [Json.str "integer", Json.str "string"])])]) =
      .ok (⟨"tags", "string", "REPEATED", []⟩, false) := by
  refine ⟨by decide, by decide, by decide, ?_⟩
  have h := C10_amended "tags" [Json.str "integer", Json.str "string"]
    (by decide) (by decide) (by decide)
  simpa using h

end TargetBigQuery
